import Mathlib

/-!
Verification of the decision-and-risk core of a trading bot
(`trading_bot`: `config.py`, `indicators.py`, `risk_manager.py`,
`state_manager.py`, `order_manager.py`, `trading_engine.py`).

Numeric quantities (Python floats) are embedded as rationals `ℚ`; Python
`int(x)` truncation toward zero is embedded explicitly as `pyInt`.
Dictionaries are embedded as insertion-ordered association lists with the
assignment / deletion / lookup semantics of Python dicts.
-/

/-- Python `int(x)` applied to a float: truncation toward zero. -/
def pyInt (q : ℚ) : ℤ :=
  if 0 ≤ q then ⌊q⌋ else ⌈q⌉

/-- Python dict assignment `m[k] = v`: overwrite in place if the key is
present (insertion position kept), else append at the end. -/
def dictSet {α : Type} (m : List (String × α)) (k : String) (v : α) :
    List (String × α) :=
  if m.any (fun p => p.1 == k) then
    m.map (fun p => if p.1 == k then (k, v) else p)
  else
    m ++ [(k, v)]

/-- Python dict deletion `del m[k]` (callers guard with `k in m`). -/
def dictDel {α : Type} (m : List (String × α)) (k : String) :
    List (String × α) :=
  m.filter (fun p => ¬ p.1 == k)

/-- Python dict lookup `m.get(k)`. -/
def dictGet {α : Type} (m : List (String × α)) (k : String) : Option α :=
  (m.find? (fun p => p.1 == k)).map (fun p => p.2)

/-- Sum of the values of a dict (`sum(m.values())`). -/
def dictValuesSum (m : List (String × ℚ)) : ℚ :=
  (m.map (fun p => p.2)).sum

namespace config

/-- `config.RISK_PER_TRADE = 0.0075` (0.75% of equity per trade). -/
def RISK_PER_TRADE : ℚ := 0.0075

/-- `config.MIN_RISK_PER_TRADE = 0.005`. -/
def MIN_RISK_PER_TRADE : ℚ := 0.005

/-- `config.MAX_RISK_PER_TRADE = 0.01`. -/
def MAX_RISK_PER_TRADE : ℚ := 0.01

/-- `config.TOTAL_OPEN_RISK_CAP = 0.035` (3.5% total equity at risk). -/
def TOTAL_OPEN_RISK_CAP : ℚ := 0.035

/-- `config.MIN_STOP_SPREAD_MULTIPLIER = 3`. -/
def MIN_STOP_SPREAD_MULTIPLIER : ℚ := 3

/-- `config.MIN_STOP_PERCENT = 0.005`. -/
def MIN_STOP_PERCENT : ℚ := 0.005

/-- `config.MAX_CONSECUTIVE_LOSSES = 3`. -/
def MAX_CONSECUTIVE_LOSSES : Nat := 3

/-- `config.DRAWDOWN_RISK_REDUCTION = 0.50`. -/
def DRAWDOWN_RISK_REDUCTION : ℚ := 0.50

/-- `config.EQUITY_CURVE_LOOKBACK = 20`. -/
def EQUITY_CURVE_LOOKBACK : Nat := 20

/-- `config.EQUITY_CURVE_BOOST = 0.25`. -/
def EQUITY_CURVE_BOOST : ℚ := 0.25

/-- `config.KILL_SWITCH_ERROR_COUNT = 3`. -/
def KILL_SWITCH_ERROR_COUNT : Nat := 3

/-- `config.KILL_SWITCH_WINDOW_MINUTES = 10`. -/
def KILL_SWITCH_WINDOW_MINUTES : ℚ := 10

/-- `config.TRADING_UNIVERSE`. -/
def TRADING_UNIVERSE : List String :=
  ["AAPL", "MSFT", "GOOGL", "AMZN", "NVDA", "META", "TSLA", "BRK.B",
   "JPM", "V", "UNH", "XOM", "JNJ", "WMT", "MA", "PG", "HD", "CVX",
   "MRK", "ABBV"]

end config

namespace indicators

/-- `indicators.detect_ema_crossover(fast_ema, slow_ema)`: pure function of
the last two samples of two series; `(False, False)` when either series has
fewer than two samples. -/
def detect_ema_crossover (fast_ema slow_ema : List ℚ) : Bool × Bool :=
  if fast_ema.length < 2 ∨ slow_ema.length < 2 then
    (false, false)
  else
    let prev_fast := fast_ema.getD (fast_ema.length - 2) 0
    let prev_slow := slow_ema.getD (slow_ema.length - 2) 0
    let curr_fast := fast_ema.getD (fast_ema.length - 1) 0
    let curr_slow := slow_ema.getD (slow_ema.length - 1) 0
    (decide (prev_fast ≤ prev_slow ∧ curr_fast > curr_slow),
     decide (prev_fast ≥ prev_slow ∧ curr_fast < curr_slow))

/-- `indicators.is_in_drawdown(current_equity, peak_equity, threshold)`. -/
def is_in_drawdown (current_equity peak_equity threshold : ℚ) : Bool :=
  if peak_equity = 0 then false
  else decide ((peak_equity - current_equity) / peak_equity > threshold)

/-- Least-squares slope of `np.polyfit(x, y, 1)` for `x = 0, 1, ..., n-1`. -/
def polyfitSlope (ys : List ℚ) : ℚ :=
  let n : ℚ := ys.length
  let xs : List ℚ := (List.range ys.length).map (fun i => (i : ℚ))
  let sx := xs.sum
  let sy := ys.sum
  let sxy := ((xs.zip ys).map (fun p => p.1 * p.2)).sum
  let sxx := (xs.map (fun x => x * x)).sum
  (n * sxy - sx * sy) / (n * sxx - sx * sx)

/-- `indicators.calculate_equity_curve_slope(equity_values, lookback)`:
slope of the linear regression of the last `lookback` equity values,
normalized to percentage returns from the first value of the window. -/
def calculate_equity_curve_slope (equity_values : List ℚ) (lookback : Nat) : ℚ :=
  if equity_values.length < lookback then 0
  else
    let recent := equity_values.drop (equity_values.length - lookback)
    match recent with
    | [] => 0
    | e0 :: _ =>
        if e0 = 0 then 0
        else polyfitSlope (recent.map (fun e => (e / e0 - 1) * 100))

/-- `indicators.calculate_position_size(account_equity, risk_percent,
entry_price, stop_price)`. -/
def calculate_position_size (account_equity risk_percent entry_price stop_price : ℚ) : ℤ :=
  let stop_distance := |entry_price - stop_price|
  if stop_distance = 0 then 0
  else
    let risk_amount := account_equity * risk_percent
    let shares := pyInt (risk_amount / stop_distance)
    max 1 shares

end indicators

/-- `RiskManager` state (`risk_manager.py` `__init__`); `equity_history`
entries pair a session date (ordinal) with the equity on that date. -/
structure RiskManager where
  daily_pnl : ℚ
  daily_start_equity : ℚ
  consecutive_losses : Nat
  peak_equity : ℚ
  equity_history : List (Nat × ℚ)
  trade_risk : List (String × ℚ)
  paused_until_next_session : Bool
  circuit_breaker_active : Bool
  last_session_date : Option Nat
deriving DecidableEq, Repr

namespace RiskManager

/-- `RiskManager()` constructor. -/
def init : RiskManager :=
  { daily_pnl := 0
    daily_start_equity := 0
    consecutive_losses := 0
    peak_equity := 0
    equity_history := []
    trade_risk := []
    paused_until_next_session := false
    circuit_breaker_active := false
    last_session_date := none }

/-- `RiskManager.initialize_day(equity)` with `today` passed explicitly. -/
def initialize_day (rm : RiskManager) (today : Nat) (equity : ℚ) : RiskManager :=
  let rm :=
    if rm.last_session_date ≠ some today then
      { rm with daily_pnl := 0, daily_start_equity := equity,
                paused_until_next_session := false,
                circuit_breaker_active := false,
                consecutive_losses := 0,
                last_session_date := some today }
    else rm
  let rm :=
    if equity > rm.peak_equity then { rm with peak_equity := equity } else rm
  let eh := rm.equity_history ++ [(today, equity)]
  { rm with equity_history := if eh.length > 30 then eh.drop (eh.length - 30) else eh }

/-- `RiskManager.record_trade_result(is_win)`. -/
def record_trade_result (rm : RiskManager) (is_win : Bool) : RiskManager :=
  if is_win then { rm with consecutive_losses := 0 }
  else
    let c := rm.consecutive_losses + 1
    { rm with consecutive_losses := c,
              paused_until_next_session :=
                if c ≥ config.MAX_CONSECUTIVE_LOSSES then true
                else rm.paused_until_next_session }

/-- `RiskManager.can_enter_new_trade()`. -/
def can_enter_new_trade (rm : RiskManager) : Bool :=
  if rm.paused_until_next_session then false
  else if rm.circuit_breaker_active then false
  else true

/-- `RiskManager.get_adjusted_risk_percent(current_equity)`. -/
def get_adjusted_risk_percent (rm : RiskManager) (current_equity : ℚ) : ℚ :=
  let base_risk := config.RISK_PER_TRADE
  if indicators.is_in_drawdown current_equity rm.peak_equity 0.02 then
    max config.MIN_RISK_PER_TRADE (base_risk * (1 - config.DRAWDOWN_RISK_REDUCTION))
  else if rm.equity_history.length ≥ config.EQUITY_CURVE_LOOKBACK then
    let slope := indicators.calculate_equity_curve_slope
      (rm.equity_history.map (fun e => e.2)) config.EQUITY_CURVE_LOOKBACK
    if slope > 0.1 then
      min config.MAX_RISK_PER_TRADE (base_risk * (1 + config.EQUITY_CURVE_BOOST))
    else base_risk
  else base_risk

/-- `RiskManager.calculate_position_size(account_equity, entry_price,
stop_price, median_spread)`; returns `(shares, actual_risk)`. -/
def calculate_position_size (rm : RiskManager)
    (account_equity entry_price stop_price median_spread : ℚ) : ℤ × ℚ :=
  let stop_distance := |entry_price - stop_price|
  let min_stop_spread := median_spread * config.MIN_STOP_SPREAD_MULTIPLIER
  let min_stop_percent := entry_price * config.MIN_STOP_PERCENT
  let min_stop := max min_stop_spread min_stop_percent
  let stop_distance := if stop_distance < min_stop then min_stop else stop_distance
  let risk_percent := rm.get_adjusted_risk_percent account_equity
  let risk_amount := account_equity * risk_percent
  let shares := pyInt (risk_amount / stop_distance)
  let shares := max 1 shares
  let actual_risk := (shares : ℚ) * stop_distance
  (shares, actual_risk)

/-- `RiskManager.check_total_risk_capacity(proposed_risk, account_equity)`. -/
def check_total_risk_capacity (rm : RiskManager)
    (proposed_risk account_equity : ℚ) : Bool :=
  let current_total_risk := dictValuesSum rm.trade_risk
  let max_total_risk := account_equity * config.TOTAL_OPEN_RISK_CAP
  if current_total_risk + proposed_risk > max_total_risk then false
  else true

/-- `RiskManager.register_trade_risk(symbol, risk_amount)`. -/
def register_trade_risk (rm : RiskManager) (symbol : String) (risk_amount : ℚ) :
    RiskManager :=
  { rm with trade_risk := dictSet rm.trade_risk symbol risk_amount }

/-- `RiskManager.unregister_trade_risk(symbol)`. -/
def unregister_trade_risk (rm : RiskManager) (symbol : String) : RiskManager :=
  { rm with trade_risk := dictDel rm.trade_risk symbol }

end RiskManager

/-- A portfolio-level risk event seen by the `RiskManager` during a run of
`trading_engine.py`: an entry candidate that has been sized (risk amount)
and is submitted against the account equity observed at that moment
(`TradingEngine._execute_entry`), or an exit that unregisters a symbol
(`TradingEngine._exit_trade`). -/
inductive RiskEvent where
  | enter (symbol : String) (risk : ℚ) (equity : ℚ)
  | close (symbol : String)
deriving DecidableEq, Repr

/-- The risk-ledger effect of one event, as sequenced by
`TradingEngine._execute_entry`: the proposed risk is checked by
`check_total_risk_capacity` and registered only on approval; a rejected
candidate registers nothing; an exit unregisters its symbol. -/
def riskStep (rm : RiskManager) (ev : RiskEvent) : RiskManager :=
  match ev with
  | .enter symbol risk equity =>
      if rm.check_total_risk_capacity risk equity then
        rm.register_trade_risk symbol risk
      else rm
  | .close symbol => rm.unregister_trade_risk symbol

/-- Run a sequence of approved-or-rejected entries and exits. -/
def runRiskEvents (rm : RiskManager) (evs : List RiskEvent) : RiskManager :=
  evs.foldl riskStep rm

/-- Well-formedness of the risk ledger: unique symbols, nonnegative risk
amounts (risk amounts in the source are `shares * stop_distance ≥ 0`). -/
def RiskMapOK (rm : RiskManager) : Prop :=
  (rm.trade_risk.map Prod.fst).Nodup ∧ ∀ p ∈ rm.trade_risk, 0 ≤ p.2

/-- A broker position as returned by `OrderManager.get_positions()`
(fields beyond the instrument and quantity are not consulted by the
embedded operations). -/
structure BrokerPos where
  symbol : String
  qty : ℚ
deriving DecidableEq, Repr

/-- An active trade as persisted by `TradingEngine._execute_entry` via
`StateManager.update_trade`. -/
structure Trade where
  symbol : String
  side : String
  entry_price : ℚ
  qty : ℤ
  stop_price : ℚ
  risk_amount : ℚ
  entry_time : String
  ema_fast : Nat
  ema_slow : Nat
  vol_regime : String
  pyramid_adds : Nat
deriving DecidableEq, Repr

/-- A pending protective order tracked by `StateManager.update_stop`. -/
structure StopEntry where
  order_id : String
  stop_price : ℚ
  updated_at : String
deriving DecidableEq, Repr

/-- The persisted bot state (`StateManager._default_state` lists the
fields). -/
structure PersistedState where
  last_run : Option String
  last_session_date : Option String
  active_trades : List (String × Trade)
  pending_stops : List (String × StopEntry)
  daily_pnl : ℚ
  daily_start_equity : ℚ
  consecutive_losses : Nat
  peak_equity : ℚ
  trade_counter : Nat
  ema_periods : List (String × (Nat × Nat))
  last_universe_update : Option String
  universe_symbols : List String
  error_count : Nat
  kill_switch_active : Bool
  paused_until_next_session : Bool
  circuit_breaker_active : Bool
  bars_since_entry : List (String × Nat)
  observed_slippage : List (String × ℚ)
deriving DecidableEq, Repr

/-- The discrepancy report built by `StateManager.reconcile_positions`.
The source initializes the `qty_mismatch` bucket but contains no code that
appends to it. -/
structure Discrepancies where
  missing_in_state : List BrokerPos
  missing_in_broker : List Trade
  qty_mismatch : List BrokerPos
deriving DecidableEq, Repr

namespace StateManager

/-- `StateManager._default_state()`. -/
def default_state : PersistedState :=
  { last_run := none
    last_session_date := none
    active_trades := []
    pending_stops := []
    daily_pnl := 0
    daily_start_equity := 0
    consecutive_losses := 0
    peak_equity := 0
    trade_counter := 0
    ema_periods := []
    last_universe_update := none
    universe_symbols := config.TRADING_UNIVERSE
    error_count := 0
    kill_switch_active := false
    paused_until_next_session := false
    circuit_breaker_active := false
    bars_since_entry := []
    observed_slippage := [] }

/-- What reading the state file at startup can yield: no file, a file whose
contents `json.load` cannot parse, or a parsed state. -/
inductive StateFileRead where
  | absent
  | unparseable
  | parsed (s : PersistedState)

/-- `StateManager._load_state()`: if the file exists, try to parse it; a
parse failure is caught, logged, and falls through to the default state;
an absent file also yields the default state. -/
def load_state : StateFileRead → PersistedState
  | .parsed s => s
  | .unparseable => default_state
  | .absent => default_state

/-- `StateManager.update_trade(trade_id, trade_data)` (persistence flush is
an external effect). -/
def update_trade (st : PersistedState) (trade_id : String) (t : Trade) :
    PersistedState :=
  { st with active_trades := dictSet st.active_trades trade_id t }

/-- `StateManager.remove_trade(trade_id)`. -/
def remove_trade (st : PersistedState) (trade_id : String) : PersistedState :=
  { st with active_trades := dictDel st.active_trades trade_id,
            bars_since_entry := dictDel st.bars_since_entry trade_id }

/-- `StateManager.update_stop(symbol, stop_order_id, stop_price)` with the
wall-clock timestamp passed explicitly. -/
def update_stop (st : PersistedState) (symbol stop_order_id : String)
    (stop_price : ℚ) (now : String) : PersistedState :=
  { st with pending_stops :=
      dictSet st.pending_stops symbol ⟨stop_order_id, stop_price, now⟩ }

/-- `StateManager.get_active_trades()`. -/
def get_active_trades (st : PersistedState) : List (String × Trade) :=
  st.active_trades

/-- `StateManager.reconcile_positions(broker_positions)`.

The first loop reports every broker position whose symbol matches no
persisted trade; nothing is added to the ledger for them.  The second loop
iterates over the live `active_trades` dict and, on the first trade whose
symbol matches no broker position, appends it to `missing_in_broker`,
deletes it from the dict being iterated — after which the next iteration
step raises `RuntimeError` (dictionary changed size during iteration), so
the discrepancy report is lost and the exception propagates (`none`
result).  When no trade is stale the loop completes and the report is
returned with the ledger untouched. -/
def reconcile_positions (broker_positions : List BrokerPos)
    (st : PersistedState) : Option Discrepancies × PersistedState :=
  let state_trades := get_active_trades st
  let state_symbols := state_trades.map (fun p => p.2.symbol)
  let broker_symbols := broker_positions.map (fun p => p.symbol)
  let missing_in_state :=
    broker_positions.filter (fun p => ¬ state_symbols.contains p.symbol)
  match state_trades.find? (fun p => ¬ broker_symbols.contains p.2.symbol) with
  | some stale => (none, remove_trade st stale.1)
  | none =>
      (some { missing_in_state := missing_in_state
              missing_in_broker := []
              qty_mismatch := [] }, st)

end StateManager

namespace OrderManager

/-- The kill-switch error tracker slice of `OrderManager.__init__`. -/
structure ErrorTracker where
  error_count : Nat
  last_error_time : Option ℚ
deriving DecidableEq, Repr

/-- `OrderManager.__init__` starts with no tracked errors. -/
def fresh : ErrorTracker := { error_count := 0, last_error_time := none }

/-- `OrderManager._track_error()` with `datetime.now()` (in seconds)
passed explicitly: the counter resets only when the gap since the previous
error exceeds `KILL_SWITCH_WINDOW_MINUTES * 60` seconds, then counts the
new error. -/
def track_error (om : ErrorTracker) (now : ℚ) : ErrorTracker :=
  let om :=
    match om.last_error_time with
    | some t =>
        if now - t > config.KILL_SWITCH_WINDOW_MINUTES * 60 then
          { om with error_count := 0 }
        else om
    | none => om
  { error_count := om.error_count + 1, last_error_time := some now }

/-- `OrderManager.should_trigger_kill_switch()`. -/
def should_trigger_kill_switch (om : ErrorTracker) : Bool :=
  om.error_count ≥ config.KILL_SWITCH_ERROR_COUNT

/-- Track a sequence of error timestamps from a fresh order manager. -/
def track_errors (times : List ℚ) : ErrorTracker :=
  times.foldl track_error fresh

end OrderManager

namespace TradingEngine

/-- `TradingEngine._update_stop(trade_id, trade, new_stop)`.  The existing
pending stop order is cancelled at the venue (no state effect); the new
protective order submission result is passed as `stop_order` (`none` on
failure); only on success are the trade's stored stop price and the
pending-stop record updated. -/
def update_stop (st : PersistedState) (trade_id : String) (trade : Trade)
    (new_stop : ℚ) (stop_order : Option String) (now : String) :
    PersistedState :=
  match stop_order with
  | none => st
  | some order_id =>
      let trade' := { trade with stop_price := new_stop }
      let st := StateManager.update_trade st trade_id trade'
      StateManager.update_stop st trade.symbol order_id new_stop now

/-- The trailing-stop ratchet slice of `TradingEngine._manage_exits`: the
recomputed stop replaces the current one only when strictly more favorable
(higher for a long trade, lower for a short trade). -/
def manage_trailing_stop (st : PersistedState) (trade_id : String)
    (trade : Trade) (new_stop : ℚ) (stop_order : Option String)
    (now : String) : PersistedState :=
  let is_long := trade.side == "long"
  let current_stop := trade.stop_price
  if (is_long && decide (new_stop > current_stop)) ||
      (!is_long && decide (new_stop < current_stop)) then
    update_stop st trade_id trade new_stop stop_order now
  else st

end TradingEngine

/-- Sample broker position used in reconciliation scenarios: AAPL, 100
shares. -/
def posAAPL100 : BrokerPos := { symbol := "AAPL", qty := 100 }

/-- Sample persisted trade used in reconciliation and stop scenarios:
long AAPL, 50 shares, entry 100, stop 97. -/
def tradeAAPL50 : Trade :=
  { symbol := "AAPL", side := "long", entry_price := 100, qty := 50,
    stop_price := 97, risk_amount := 150, entry_time := "t0",
    ema_fast := 9, ema_slow := 21, vol_regime := "normal", pyramid_adds := 0 }

/-- Persisted state holding only the sample AAPL trade under id `T1`. -/
def stateAAPL : PersistedState :=
  { StateManager.default_state with active_trades := [("T1", tradeAAPL50)] }

/-- Last-two-elements lemma used to read `iloc[-2]`/`iloc[-1]` off a series
presented as `l ++ [a, b]`. -/
theorem getD_append_pair (l : List ℚ) (a b : ℚ) :
    (l ++ [a, b]).getD l.length 0 = a ∧ (l ++ [a, b]).getD (l.length + 1) 0 = b := by
  induction l with
  | nil => simp [List.getD]
  | cons x xs ih =>
      simpa [List.getD, List.length_cons] using ih

/-- C8: crossover detection is a pure function of the last two samples:
bullish iff previous fast ≤ previous slow and current fast > current slow,
bearish iff previous fast ≥ previous slow and current fast < current slow;
`(false, false)` whenever either series has fewer than two samples. -/
theorem detect_ema_crossover_spec (fast slow fpre spre : List ℚ)
    (pf cf ps cs : ℚ) :
    (fast.length < 2 ∨ slow.length < 2 →
      indicators.detect_ema_crossover fast slow = (false, false)) ∧
    indicators.detect_ema_crossover (fpre ++ [pf, cf]) (spre ++ [ps, cs]) =
      (decide (pf ≤ ps ∧ cf > cs), decide (pf ≥ ps ∧ cf < cs)) := by
  constructor
  · intro h
    simp [indicators.detect_ema_crossover, h]
  · have hf := getD_append_pair fpre pf cf
    have hs := getD_append_pair spre ps cs
    have hlenf : (fpre ++ [pf, cf]).length = fpre.length + 2 := by simp
    have hlens : (spre ++ [ps, cs]).length = spre.length + 2 := by simp
    have h1 : fpre.length + 2 - 1 = fpre.length + 1 := by omega
    have h1' : spre.length + 2 - 1 = spre.length + 1 := by omega
    simp only [indicators.detect_ema_crossover, hlenf, hlens, Nat.add_sub_cancel]
    rw [if_neg (by omega : ¬ (fpre.length + 2 < 2 ∨ spre.length + 2 < 2)),
      h1, h1', hf.1, hf.2, hs.1, hs.2]

/-- C8 witness: concrete bullish crossover, and the short-series case. -/
theorem detect_ema_crossover_spec_witness :
    indicators.detect_ema_crossover ([] ++ [(1 : ℚ), 3]) ([] ++ [(2 : ℚ), 2]) =
      (true, false) ∧
    indicators.detect_ema_crossover [(5 : ℚ)] [(1 : ℚ), 2] = (false, false) := by
  constructor
  · rw [(detect_ema_crossover_spec [] [] [] [] 1 3 2 2).2]
    decide
  · exact (detect_ema_crossover_spec [(5 : ℚ)] [(1 : ℚ), 2] [] [] 0 0 0 0).1
      (by simp)

/-- C9: whenever current equity is below peak equity by more than the 2%
drawdown threshold, the adjusted risk percent is
`max MIN_RISK_PER_TRADE (RISK_PER_TRADE * (1 - DRAWDOWN_RISK_REDUCTION))`,
which with the configured values equals 0.005. -/
theorem drawdown_risk_scaling (rm : RiskManager) (current_equity : ℚ)
    (hpeak : 0 < rm.peak_equity)
    (hdd : (rm.peak_equity - current_equity) / rm.peak_equity > 0.02) :
    rm.get_adjusted_risk_percent current_equity =
      max config.MIN_RISK_PER_TRADE
        (config.RISK_PER_TRADE * (1 - config.DRAWDOWN_RISK_REDUCTION)) ∧
    rm.get_adjusted_risk_percent current_equity = 0.005 := by
  have hd : indicators.is_in_drawdown current_equity rm.peak_equity 0.02 = true := by
    simp [indicators.is_in_drawdown, hpeak.ne']
    exact hdd
  have h1 : rm.get_adjusted_risk_percent current_equity =
      max config.MIN_RISK_PER_TRADE
        (config.RISK_PER_TRADE * (1 - config.DRAWDOWN_RISK_REDUCTION)) := by
    simp [RiskManager.get_adjusted_risk_percent, hd]
  refine ⟨h1, h1.trans ?_⟩
  rw [max_eq_left (by norm_num [config.MIN_RISK_PER_TRADE, config.RISK_PER_TRADE,
    config.DRAWDOWN_RISK_REDUCTION])]
  norm_num [config.MIN_RISK_PER_TRADE]

/-- C9 witness: peak equity 100000, current equity 97000 (3% drawdown,
threshold 2%) gives adjusted risk percent 0.005. -/
theorem drawdown_risk_scaling_witness :
    ({ RiskManager.init with peak_equity := 100000 } :
        RiskManager).get_adjusted_risk_percent 97000 = 0.005 :=
  (drawdown_risk_scaling { RiskManager.init with peak_equity := 100000 } 97000
    (by norm_num) (by norm_num)).2

/-- `max 1 x` does not distinguish Python truncation from mathematical floor:
for negative quotients both sides collapse to 1. -/
theorem max_one_pyInt (q : ℚ) : max 1 (pyInt q) = max 1 ⌊q⌋ := by
  unfold pyInt
  by_cases h : 0 ≤ q
  · simp [h]
  · push_neg at h
    rw [if_neg (not_le.mpr h)]
    have h1 : ⌈q⌉ ≤ 0 := Int.ceil_le.mpr (by exact_mod_cast h.le)
    have h2 : ⌊q⌋ ≤ 0 := Int.floor_nonpos h.le
    rw [max_eq_left (h1.trans zero_le_one), max_eq_left (h2.trans zero_le_one)]

/-- C2: position size is `floor(risk_amount / stop_distance)` floored at one
unit, with `risk_amount = equity * risk_percent` (the adjusted risk percent)
and `stop_distance = |entry - stop|` widened to
`max(spread floor, price-percentage floor)` when smaller. -/
theorem position_sizing_formula (rm : RiskManager)
    (account_equity entry_price stop_price median_spread : ℚ)
    (hentry : 0 < entry_price) :
    (rm.calculate_position_size account_equity entry_price stop_price
        median_spread).1 =
      max 1 ⌊(account_equity * rm.get_adjusted_risk_percent account_equity) /
        (max |entry_price - stop_price|
          (max (median_spread * config.MIN_STOP_SPREAD_MULTIPLIER)
               (entry_price * config.MIN_STOP_PERCENT)))⌋ := by
  have hsd :
      (if |entry_price - stop_price| <
          max (median_spread * config.MIN_STOP_SPREAD_MULTIPLIER)
              (entry_price * config.MIN_STOP_PERCENT) then
        max (median_spread * config.MIN_STOP_SPREAD_MULTIPLIER)
            (entry_price * config.MIN_STOP_PERCENT)
      else |entry_price - stop_price|) =
      max |entry_price - stop_price|
        (max (median_spread * config.MIN_STOP_SPREAD_MULTIPLIER)
             (entry_price * config.MIN_STOP_PERCENT)) := by
    split
    · exact (max_eq_right (le_of_lt (by assumption))).symm
    · exact (max_eq_left (not_lt.mp (by assumption))).symm
  simp only [RiskManager.calculate_position_size]
  rw [hsd]
  exact max_one_pyInt _

/-- C2 witness: equity 100000, entry 100, stop 97, zero spread with a fresh
risk manager (base risk percent 0.0075) gives exactly 250 shares. -/
theorem position_sizing_formula_witness :
    (0 : ℚ) < 100 ∧
    (RiskManager.init.calculate_position_size 100000 100 97 0).1 = 250 := by
  refine ⟨by norm_num, ?_⟩
  rw [position_sizing_formula RiskManager.init 100000 100 97 0 (by norm_num)]
  have hrp : RiskManager.init.get_adjusted_risk_percent 100000 = 0.0075 := by
    simp [RiskManager.get_adjusted_risk_percent, RiskManager.init,
      indicators.is_in_drawdown, config.EQUITY_CURVE_LOOKBACK, config.RISK_PER_TRADE]
  rw [hrp]
  have hinner : max ((0 : ℚ) * config.MIN_STOP_SPREAD_MULTIPLIER)
      (100 * config.MIN_STOP_PERCENT) = 1 / 2 := by
    rw [show (0 : ℚ) * config.MIN_STOP_SPREAD_MULTIPLIER = 0 by ring,
      show (100 : ℚ) * config.MIN_STOP_PERCENT = 1 / 2 by
        norm_num [config.MIN_STOP_PERCENT]]
    exact max_eq_right (by norm_num)
  rw [hinner, show |(100 : ℚ) - 97| = 3 by norm_num,
    max_eq_left (by norm_num : (1 : ℚ) / 2 ≤ 3),
    show (100000 : ℚ) * 0.0075 / 3 = 250 by norm_num,
    show ⌊(250 : ℚ)⌋ = 250 by norm_num]
  norm_num

/-- `RiskManager.record_trade_result` never clears the paused flag: once
set, it survives every further win or loss. -/
theorem record_trade_result_keeps_paused (results : List Bool) :
    ∀ rm : RiskManager, rm.paused_until_next_session = true →
      (results.foldl RiskManager.record_trade_result rm).paused_until_next_session
        = true := by
  induction results with
  | nil => intro rm h; exact h
  | cons b bs ih =>
      intro rm h
      apply ih
      cases b
      · simp only [RiskManager.record_trade_result, Bool.false_eq_true,
          if_false]
        split
        · rfl
        · exact h
      · simpa [RiskManager.record_trade_result] using h

/-- C10: three consecutive recorded losses set the
`paused_until_next_session` flag and make `can_enter_new_trade` return
false; the pause survives any further trade results until a session
rollover (`initialize_day` on a new date) clears it; a single winning trade
resets the consecutive-loss counter to zero and keeps entries enabled. -/
theorem consecutive_loss_gate (rm : RiskManager)
    (hp : rm.paused_until_next_session = false)
    (hcb : rm.circuit_breaker_active = false) :
    (((rm.record_trade_result false).record_trade_result
        false).record_trade_result false).paused_until_next_session = true ∧
    (((rm.record_trade_result false).record_trade_result
        false).record_trade_result false).can_enter_new_trade = false ∧
    (∀ results : List Bool, ∀ rm' : RiskManager,
        rm'.paused_until_next_session = true →
        (results.foldl RiskManager.record_trade_result
            rm').can_enter_new_trade = false) ∧
    (rm.record_trade_result true).consecutive_losses = 0 ∧
    (rm.record_trade_result true).can_enter_new_trade = true ∧
    (∀ today : Nat, ∀ equity : ℚ, ∀ rm' : RiskManager,
        rm'.last_session_date ≠ some today →
        (rm'.initialize_day today equity).paused_until_next_session = false) := by
  have hpause : (((rm.record_trade_result false).record_trade_result
      false).record_trade_result false).paused_until_next_session = true := by
    have h3 : rm.consecutive_losses + 1 + 1 + 1 ≥ config.MAX_CONSECUTIVE_LOSSES := by
      simp [config.MAX_CONSECUTIVE_LOSSES]
    simp [RiskManager.record_trade_result, h3]
  refine ⟨hpause, ?_, ?_, ?_, ?_, ?_⟩
  · simp [RiskManager.can_enter_new_trade, hpause]
  · intro results rm' h
    simp [RiskManager.can_enter_new_trade,
      record_trade_result_keeps_paused results rm' h]
  · simp [RiskManager.record_trade_result]
  · simp [RiskManager.record_trade_result, RiskManager.can_enter_new_trade,
      hp, hcb]
  · intro today equity rm' h
    simp [RiskManager.initialize_day, h]
    split <;> rfl

/-- C10 witness: from a fresh risk manager, three straight losses block new
entries; a win from the fresh state keeps entries enabled. -/
theorem consecutive_loss_gate_witness :
    (((RiskManager.init.record_trade_result false).record_trade_result
        false).record_trade_result false).can_enter_new_trade = false ∧
    (RiskManager.init.record_trade_result true).can_enter_new_trade = true :=
  ⟨(consecutive_loss_gate RiskManager.init rfl rfl).2.1,
   (consecutive_loss_gate RiskManager.init rfl rfl).2.2.2.2.1⟩

/-- Appending a value under a fresh head key commutes with `dictSet`. -/
theorem dictSet_cons_ne {α : Type} (a : String × α) (m : List (String × α))
    (k : String) (v : α) (h : (a.1 == k) = false) :
    dictSet (a :: m) k v = a :: dictSet m k v := by
  unfold dictSet
  simp only [List.any_cons, h, Bool.false_or]
  by_cases hm : m.any (fun p => p.1 == k) = true
  · simp only [hm, if_true, List.map_cons, if_neg (by simp [h] : ¬ (a.1 == k) = true)]
  · simp [hm, h]

/-- Replacing a key that occurs nowhere in the dict is the identity. -/
theorem map_replace_eq_self {α : Type} (m : List (String × α)) (k : String)
    (v : α) (h : ∀ p ∈ m, (p.1 == k) = false) :
    m.map (fun p => if p.1 == k then (k, v) else p) = m := by
  induction m with
  | nil => rfl
  | cons a m ih =>
      rw [List.map_cons, if_neg (by simp [h a (by simp)]),
        ih (fun p hp => h p (by simp [hp]))]

/-- Python dict assignment increases the sum of the stored risk values by
at most the newly assigned value, provided keys are unique and stored
values are nonnegative (the overwritten value, if any, is dropped). -/
theorem dictSet_values_sum_le (m : List (String × ℚ)) (k : String) (v : ℚ)
    (hnodup : (m.map Prod.fst).Nodup) (hnn : ∀ p ∈ m, 0 ≤ p.2) :
    dictValuesSum (dictSet m k v) ≤ dictValuesSum m + v := by
  induction m with
  | nil => simp [dictSet, dictValuesSum]
  | cons a m ih =>
      have hsplit : a.1 ∉ m.map Prod.fst ∧ (m.map Prod.fst).Nodup := by
        have := hnodup
        simp only [List.map_cons, List.nodup_cons] at this
        exact this
      obtain ⟨hnotin, hnd⟩ := hsplit
      by_cases hak : (a.1 == k) = true
      · have hkeq : a.1 = k := by simpa using hak
        have hnone : ∀ p ∈ m, (p.1 == k) = false := by
          intro p hp
          have hpm : p.1 ∈ m.map Prod.fst := List.mem_map_of_mem _ hp
          have : p.1 ≠ a.1 := fun hEq => hnotin (hEq ▸ hpm)
          simp [hkeq ▸ this]
        have hset : dictSet (a :: m) k v = (k, v) :: m := by
          unfold dictSet
          rw [if_pos (by simp [hak]), List.map_cons, if_pos hak,
            map_replace_eq_self m k v hnone]
        rw [hset]
        have ha2 : 0 ≤ a.2 := hnn a (by simp)
        simp only [dictValuesSum, List.map_cons, List.sum_cons]
        linarith
      · have hset := dictSet_cons_ne a m k v (by simpa using hak)
        rw [hset]
        have := ih hnd (fun p hp => hnn p (by simp [hp]))
        simp only [dictValuesSum, List.map_cons, List.sum_cons] at *
        linarith

/-- `dictSet` preserves key uniqueness. -/
theorem dictSet_keys_nodup {α : Type} (m : List (String × α)) (k : String)
    (v : α) (h : (m.map Prod.fst).Nodup) :
    ((dictSet m k v).map Prod.fst).Nodup := by
  unfold dictSet
  split
  · have hkeys : (m.map (fun p => if p.1 == k then (k, v) else p)).map Prod.fst
        = m.map Prod.fst := by
      rw [List.map_map]
      apply List.map_congr_left
      intro p _
      by_cases hpk : (p.1 == k) = true
      · have : p.1 = k := by simpa using hpk
        simp [Function.comp, hpk, this]
      · simp [Function.comp, hpk]
    rw [hkeys]
    exact h
  · rename_i hany
    have hall : ∀ p ∈ m, (p.1 == k) = false := by
      intro p hp
      have h' := hany
      rw [List.any_eq_true] at h'
      push_neg at h'
      simpa using h' p hp
    have hnotin : k ∉ m.map Prod.fst := by
      intro hk
      rcases List.mem_map.mp hk with ⟨p, hp, hpk⟩
      have := hall p hp
      rw [hpk] at this
      simp at this
    rw [List.map_append]
    simp only [List.map_cons, List.map_nil]
    refine List.Nodup.append h (List.nodup_singleton k) ?_
    intro x hx hx'
    rw [List.mem_singleton] at hx'
    subst hx'
    exact hnotin hx

/-- Every entry of `dictSet m k v` is the new pair or an old entry. -/
theorem mem_dictSet {α : Type} (m : List (String × α)) (k : String) (v : α)
    (p : String × α) (hp : p ∈ dictSet m k v) : p = (k, v) ∨ p ∈ m := by
  unfold dictSet at hp
  split at hp
  · rcases List.mem_map.mp hp with ⟨q, hq, hfq⟩
    by_cases hqk : (q.1 == k) = true
    · left
      rw [← hfq, if_pos hqk]
    · right
      rw [← hfq, if_neg hqk]
      exact hq
  · rcases List.mem_append.mp hp with h | h
    · right; exact h
    · left; simpa using h

/-- `dictDel` preserves key uniqueness. -/
theorem dictDel_keys_nodup {α : Type} (m : List (String × α)) (k : String)
    (h : (m.map Prod.fst).Nodup) : ((dictDel m k).map Prod.fst).Nodup :=
  List.Nodup.sublist (List.Sublist.map Prod.fst (List.filter_sublist m)) h

/-- Each step of the risk-event semantics preserves ledger
well-formedness, provided the entered risk amount is nonnegative. -/
theorem riskStep_ok (rm : RiskManager) (ev : RiskEvent)
    (h : RiskMapOK rm)
    (hnn : ∀ s r e, ev = RiskEvent.enter s r e → 0 ≤ r) :
    RiskMapOK (riskStep rm ev) := by
  cases ev with
  | enter s r e =>
      by_cases hc : rm.check_total_risk_capacity r e = true
      · simp only [riskStep, hc, if_true, RiskManager.register_trade_risk]
        constructor
        · exact dictSet_keys_nodup _ _ _ h.1
        · intro p hp
          rcases mem_dictSet _ _ _ p hp with hpe | hpm
          · rw [hpe]
            exact hnn s r e rfl
          · exact h.2 p hpm
      · simpa [riskStep, hc] using h
  | close s =>
      simp only [riskStep, RiskManager.unregister_trade_risk]
      exact ⟨dictDel_keys_nodup _ _ h.1,
        fun p hp => h.2 p (List.mem_of_mem_filter hp)⟩

/-- Running any sequence of risk events preserves ledger well-formedness. -/
theorem runRiskEvents_ok (evs : List RiskEvent) :
    ∀ rm : RiskManager, RiskMapOK rm →
      (∀ s r e, RiskEvent.enter s r e ∈ evs → 0 ≤ r) →
      RiskMapOK (runRiskEvents rm evs) := by
  induction evs with
  | nil => intro rm h _; exact h
  | cons ev evs ih =>
      intro rm h hnn
      have hstep : RiskMapOK (riskStep rm ev) :=
        riskStep_ok rm ev h (fun s r e hev => hnn s r e (by simp [hev]))
      have : runRiskEvents rm (ev :: evs) = runRiskEvents (riskStep rm ev) evs := by
        simp [runRiskEvents]
      rw [this]
      exact ih (riskStep rm ev) hstep (fun s r e hev => hnn s r e (by simp [hev]))

/-- C1: for every sequence of entries and exits starting from a fresh risk
manager, in which every entered risk amount is nonnegative, whenever an
entry is approved by `check_total_risk_capacity` against the equity
observed at that moment, the sum of all registered open-risk amounts
immediately after the approval (and its registration) is at most
`equity * TOTAL_OPEN_RISK_CAP`. -/
theorem total_risk_cap_invariant (evs : List RiskEvent) (symbol : String)
    (risk equity : ℚ)
    (hnn : ∀ s r e, RiskEvent.enter s r e ∈ evs → 0 ≤ r)
    (happroved : (runRiskEvents RiskManager.init evs).check_total_risk_capacity
        risk equity = true) :
    dictValuesSum (runRiskEvents RiskManager.init
        (evs ++ [RiskEvent.enter symbol risk equity])).trade_risk
      ≤ equity * config.TOTAL_OPEN_RISK_CAP := by
  have hOK : RiskMapOK (runRiskEvents RiskManager.init evs) :=
    runRiskEvents_ok evs RiskManager.init
      ⟨by simp [RiskManager.init], by simp [RiskManager.init]⟩ hnn
  have happ : runRiskEvents RiskManager.init
      (evs ++ [RiskEvent.enter symbol risk equity])
      = riskStep (runRiskEvents RiskManager.init evs)
          (RiskEvent.enter symbol risk equity) := by
    simp [runRiskEvents, List.foldl_append]
  have hcheck : dictValuesSum (runRiskEvents RiskManager.init evs).trade_risk
      + risk ≤ equity * config.TOTAL_OPEN_RISK_CAP := by
    by_contra hcon
    push_neg at hcon
    simp [RiskManager.check_total_risk_capacity] at happroved
    exact absurd hcon (not_lt.mpr happroved)
  rw [happ]
  simp only [riskStep, happroved, if_true, RiskManager.register_trade_risk]
  calc dictValuesSum (dictSet (runRiskEvents RiskManager.init evs).trade_risk
          symbol risk)
      ≤ dictValuesSum (runRiskEvents RiskManager.init evs).trade_risk + risk :=
        dictSet_values_sum_le _ _ _ hOK.1 hOK.2
    _ ≤ equity * config.TOTAL_OPEN_RISK_CAP := hcheck

/-- C1 witness: a first approved entry of risk 100 at equity 100000 keeps
the registered total within the 3.5% cap. -/
theorem total_risk_cap_invariant_witness :
    dictValuesSum (runRiskEvents RiskManager.init
        ([] ++ [RiskEvent.enter "AAPL" 100 100000])).trade_risk
      ≤ 100000 * config.TOTAL_OPEN_RISK_CAP := by
  apply total_risk_cap_invariant
  · intro s r e h
    simp at h
  · simp [RiskManager.check_total_risk_capacity, runRiskEvents,
      RiskManager.init, dictValuesSum, config.TOTAL_OPEN_RISK_CAP]
    norm_num

/-- C4 counterexample: a state file that exists but cannot be parsed is not
fatal — `_load_state` catches the parse error and returns the same safe
empty default state that an absent file yields, and startup proceeds. -/
theorem load_state_corruption_yields_default :
    StateManager.load_state StateManager.StateFileRead.unparseable =
      StateManager.default_state := rfl

/-- C4 (amended): corruption of the persisted state file is handled
identically to absence — the loader logs the error and returns the safe
empty default state; loading never fails closed. -/
theorem load_state_corruption_same_as_absence :
    StateManager.load_state StateManager.StateFileRead.unparseable =
      StateManager.load_state StateManager.StateFileRead.absent ∧
    StateManager.load_state StateManager.StateFileRead.absent =
      StateManager.default_state :=
  ⟨rfl, rfl⟩

/-- C5: quantity mismatches are never reported.  Broker holds 100 AAPL
shares while the ledger records 50, yet `reconcile_positions` returns an
empty `qty_mismatch` bucket (and empty other buckets), leaving the state
unchanged — the code initializes the bucket but never populates it. -/
theorem reconcile_qty_mismatch_unreported :
    (StateManager.reconcile_positions [posAAPL100] stateAAPL).1 =
      some { missing_in_state := [], missing_in_broker := [],
             qty_mismatch := [] } ∧
    (StateManager.reconcile_positions [posAAPL100] stateAAPL).2 = stateAAPL ∧
    posAAPL100.qty ≠ (tradeAAPL50.qty : ℚ) := by
  refine ⟨rfl, rfl, ?_⟩
  norm_num [posAAPL100, tradeAAPL50]

/-- C6 counterexample: a broker-only position is not adopted into the
ledger, so the second reconciliation run re-reports it: after reconciling
broker = [AAPL] against an empty ledger, reconciling again still reports
the AAPL position as `missing_in_state` — the three buckets are not all
empty on the second call. -/
theorem reconcile_second_call_not_clean :
    (StateManager.reconcile_positions [posAAPL100]
        (StateManager.reconcile_positions [posAAPL100]
          StateManager.default_state).2).1 =
      some { missing_in_state := [posAAPL100], missing_in_broker := [],
             qty_mismatch := [] } ∧
    ([posAAPL100] : List BrokerPos) ≠ [] := by
  exact ⟨rfl, by simp⟩

/-- C6 (amended): when a reconciliation run completes without raising, it
leaves the ledger unchanged and reports empty `missing_in_broker` and
`qty_mismatch` buckets; running it again with the same broker positions
returns exactly the same report — in particular any `missing_in_state`
entries are re-reported rather than cleared, so the second run's buckets
are all empty only when every broker position already matched the
ledger. -/
theorem reconcile_idempotent_on_success (broker : List BrokerPos)
    (st : PersistedState) (d : Discrepancies) (st' : PersistedState)
    (h : StateManager.reconcile_positions broker st = (some d, st')) :
    st' = st ∧ d.missing_in_broker = [] ∧ d.qty_mismatch = [] ∧
    StateManager.reconcile_positions broker st' = (some d, st') := by
  simp only [StateManager.reconcile_positions] at h
  split at h
  · simp at h
  · rename_i hfind
    simp only [Prod.mk.injEq, Option.some.injEq] at h
    obtain ⟨hd, hst⟩ := h
    subst hst
    refine ⟨rfl, by rw [← hd], by rw [← hd], ?_⟩
    simp only [StateManager.reconcile_positions]
    rw [hfind, hd]

/-- C6 witness for the amended claim: reconciling broker = [AAPL] against
the empty default ledger completes, and the second run returns the same
report. -/
theorem reconcile_idempotent_on_success_witness :
    (StateManager.reconcile_positions [posAAPL100]
        StateManager.default_state).2 = StateManager.default_state ∧
    StateManager.reconcile_positions [posAAPL100]
        StateManager.default_state =
      (some { missing_in_state := [posAAPL100], missing_in_broker := [],
              qty_mismatch := [] }, StateManager.default_state) := by
  have h := reconcile_idempotent_on_success [posAAPL100]
    StateManager.default_state
    { missing_in_state := [posAAPL100], missing_in_broker := [],
      qty_mismatch := [] }
    StateManager.default_state rfl
  exact ⟨h.1, rfl⟩

/-- Looking up the key just assigned returns the assigned value. -/
theorem dictGet_dictSet {α : Type} (m : List (String × α)) (k : String)
    (v : α) : dictGet (dictSet m k v) k = some v := by
  induction m with
  | nil => simp [dictSet, dictGet]
  | cons a m ih =>
      by_cases hak : (a.1 == k) = true
      · unfold dictSet dictGet
        rw [if_pos (by simp [hak]), List.map_cons, if_pos hak]
        simp [List.find?]
      · rw [dictSet_cons_ne a m k v (by simpa using hak)]
        unfold dictGet at ih ⊢
        rw [List.find?_cons]
        simp only [hak]
        exact ih

/-- C7: the protective stop is replaced only when the recomputed trailing
stop is strictly more favorable (higher for long, lower for short).  When
it is equal or less favorable, the whole persisted state — the trade's
stored `stop_price` and the pending protective order — is left unchanged;
and in every case the stored stop never moves against the trade. -/
theorem trailing_stop_ratchet (st : PersistedState) (trade_id : String)
    (trade : Trade) (new_stop : ℚ) (stop_order : Option String) (now : String)
    (htrade : dictGet st.active_trades trade_id = some trade) :
    (¬ ((trade.side == "long") = true ∧ trade.stop_price < new_stop) ∧
     ¬ ((trade.side == "long") = false ∧ new_stop < trade.stop_price) →
      TradingEngine.manage_trailing_stop st trade_id trade new_stop
        stop_order now = st) ∧
    ∀ t', dictGet (TradingEngine.manage_trailing_stop st trade_id trade
        new_stop stop_order now).active_trades trade_id = some t' →
      ((trade.side == "long") = true → trade.stop_price ≤ t'.stop_price) ∧
      ((trade.side == "long") = false → t'.stop_price ≤ trade.stop_price) := by
  by_cases hcond : (((trade.side == "long") && decide (new_stop > trade.stop_price)) ||
      (!(trade.side == "long") && decide (new_stop < trade.stop_price))) = true
  · constructor
    · intro hno
      exfalso
      rcases Bool.or_eq_true_iff.mp hcond with hl | hs
      · rcases Bool.and_eq_true_iff.mp hl with ⟨h1, h2⟩
        exact hno.1 ⟨h1, of_decide_eq_true h2⟩
      · rcases Bool.and_eq_true_iff.mp hs with ⟨h1, h2⟩
        exact hno.2 ⟨by simpa using h1, of_decide_eq_true h2⟩
    · intro t' ht'
      have hms : TradingEngine.manage_trailing_stop st trade_id trade new_stop
          stop_order now =
          TradingEngine.update_stop st trade_id trade new_stop stop_order now := by
        simp only [TradingEngine.manage_trailing_stop, hcond, if_true]
      rw [hms] at ht'
      cases stop_order with
      | none =>
          simp only [TradingEngine.update_stop] at ht'
          rw [htrade] at ht'
          obtain rfl : trade = t' := Option.some.inj ht'
          exact ⟨fun _ => le_refl _, fun _ => le_refl _⟩
      | some oid =>
          simp only [TradingEngine.update_stop, StateManager.update_stop,
            StateManager.update_trade] at ht'
          rw [dictGet_dictSet] at ht'
          obtain rfl : { trade with stop_price := new_stop } = t' :=
            Option.some.inj ht'
          rcases Bool.or_eq_true_iff.mp hcond with hl | hs
          · rcases Bool.and_eq_true_iff.mp hl with ⟨h1, h2⟩
            refine ⟨fun _ => (of_decide_eq_true h2).le, fun hneg => ?_⟩
            rw [h1] at hneg
            cases hneg
          · rcases Bool.and_eq_true_iff.mp hs with ⟨h1, h2⟩
            have h1' : (trade.side == "long") = false := by simpa using h1
            refine ⟨fun hpos => ?_, fun _ => (of_decide_eq_true h2).le⟩
            rw [h1'] at hpos
            cases hpos
  · have hms : TradingEngine.manage_trailing_stop st trade_id trade new_stop
        stop_order now = st := by
      simp only [TradingEngine.manage_trailing_stop]
      rw [if_neg hcond]
    constructor
    · intro _
      exact hms
    · intro t' ht'
      rw [hms, htrade] at ht'
      obtain rfl : trade = t' := Option.some.inj ht'
      exact ⟨fun _ => le_refl _, fun _ => le_refl _⟩

/-- C7 witness: a recomputed stop of 96 on a long trade with current stop
97 is less favorable, so the state is untouched even though a fresh stop
order id is available. -/
theorem trailing_stop_ratchet_witness :
    TradingEngine.manage_trailing_stop stateAAPL "T1" tradeAAPL50 96
      (some "O1") "t1" = stateAAPL :=
  (trailing_stop_ratchet stateAAPL "T1" tradeAAPL50 96 (some "O1") "t1"
    rfl).1 (by decide)

/-- After tracking an error, the last-error time is the current time. -/
theorem track_error_last (om : OrderManager.ErrorTracker) (now : ℚ) :
    (OrderManager.track_error om now).last_error_time = some now := by
  unfold OrderManager.track_error
  cases om.last_error_time <;> simp

/-- Tracking an error always leaves at least one counted error. -/
theorem track_error_count_ge_one (om : OrderManager.ErrorTracker) (now : ℚ) :
    1 ≤ (OrderManager.track_error om now).error_count := by
  unfold OrderManager.track_error
  cases om.last_error_time
  · simp
  · simp only []
    split <;> simp

/-- When the gap since the previous error stays within the window, the
counter is not reset. -/
theorem track_error_no_reset (om : OrderManager.ErrorTracker) (t now : ℚ)
    (hlast : om.last_error_time = some t)
    (hgap : now - t ≤ config.KILL_SWITCH_WINDOW_MINUTES * 60) :
    (OrderManager.track_error om now).error_count = om.error_count + 1 := by
  unfold OrderManager.track_error
  rw [hlast]
  simp only [if_neg (not_lt.mpr hgap)]

/-- When the gap since the previous error exceeds the window, the counter
restarts at one. -/
theorem track_error_reset (om : OrderManager.ErrorTracker) (t now : ℚ)
    (hlast : om.last_error_time = some t)
    (hgap : config.KILL_SWITCH_WINDOW_MINUTES * 60 < now - t) :
    (OrderManager.track_error om now).error_count = 1 := by
  unfold OrderManager.track_error
  rw [hlast]
  simp only [if_pos hgap]

/-- C3 counterexample: three errors at 0 s, 540 s and 1080 s span 18
minutes — longer than the 10-minute window — yet each consecutive gap is
only 9 minutes, so the counter never resets and the kill-switch trips. -/
theorem kill_switch_span_counterexample :
    OrderManager.should_trigger_kill_switch
        (OrderManager.track_errors [0, 540, 1080]) = true ∧
    (1080 : ℚ) - 0 > config.KILL_SWITCH_WINDOW_MINUTES * 60 := by
  constructor
  · have e1 : OrderManager.track_error OrderManager.fresh 0 =
        { error_count := 1, last_error_time := some 0 } := rfl
    have hl2 : (OrderManager.track_error (OrderManager.track_error
        OrderManager.fresh 0) 540).last_error_time = some 540 :=
      track_error_last _ 540
    have h2 : (OrderManager.track_error (OrderManager.track_error
        OrderManager.fresh 0) 540).error_count = 2 := by
      rw [e1, track_error_no_reset _ 0 540 rfl
        (by norm_num [config.KILL_SWITCH_WINDOW_MINUTES])]
    have h3 : (OrderManager.track_error (OrderManager.track_error
        (OrderManager.track_error OrderManager.fresh 0) 540)
          1080).error_count = 3 := by
      rw [track_error_no_reset _ 540 1080 hl2
        (by norm_num [config.KILL_SWITCH_WINDOW_MINUTES]), h2]
    have hlist : OrderManager.track_errors [0, 540, 1080] =
        OrderManager.track_error (OrderManager.track_error
          (OrderManager.track_error OrderManager.fresh 0) 540) 1080 := by
      simp [OrderManager.track_errors]
    rw [hlist]
    unfold OrderManager.should_trigger_kill_switch
    rw [decide_eq_true_eq, h3]
    simp [config.KILL_SWITCH_ERROR_COUNT]
  · norm_num [config.KILL_SWITCH_WINDOW_MINUTES]

/-- C3 (amended): after any error history, three further errors each
within the window of the previous one — in particular three errors inside
one window — trip the kill-switch regardless of their total span; three
fresh errors fail to trip it exactly when some consecutive gap exceeds the
window. -/
theorem kill_switch_window_spec (p : List ℚ) (a b c : ℚ)
    (hab : a ≤ b) (hbc : b ≤ c) :
    (b - a ≤ config.KILL_SWITCH_WINDOW_MINUTES * 60 ∧
     c - b ≤ config.KILL_SWITCH_WINDOW_MINUTES * 60 →
      OrderManager.should_trigger_kill_switch
        (OrderManager.track_errors (p ++ [a, b, c])) = true) ∧
    (c - a ≤ config.KILL_SWITCH_WINDOW_MINUTES * 60 →
      OrderManager.should_trigger_kill_switch
        (OrderManager.track_errors (p ++ [a, b, c])) = true) ∧
    (config.KILL_SWITCH_WINDOW_MINUTES * 60 < b - a ∨
     config.KILL_SWITCH_WINDOW_MINUTES * 60 < c - b →
      OrderManager.should_trigger_kill_switch
        (OrderManager.track_errors [a, b, c]) = false) := by
  have hsplit : OrderManager.track_errors (p ++ [a, b, c]) =
      OrderManager.track_error (OrderManager.track_error
        (OrderManager.track_error (OrderManager.track_errors p) a) b) c := by
    simp [OrderManager.track_errors, List.foldl_append]
  have hpos : b - a ≤ config.KILL_SWITCH_WINDOW_MINUTES * 60 →
      c - b ≤ config.KILL_SWITCH_WINDOW_MINUTES * 60 →
      OrderManager.should_trigger_kill_switch
        (OrderManager.track_errors (p ++ [a, b, c])) = true := by
    intro hba hcb
    set s1 := OrderManager.track_error (OrderManager.track_errors p) a with hs1
    have h1 : 1 ≤ s1.error_count := track_error_count_ge_one _ a
    have hl1 : s1.last_error_time = some a := track_error_last _ a
    have h2 : (OrderManager.track_error s1 b).error_count = s1.error_count + 1 :=
      track_error_no_reset s1 a b hl1 hba
    have hl2 : (OrderManager.track_error s1 b).last_error_time = some b :=
      track_error_last s1 b
    have h3 : (OrderManager.track_error (OrderManager.track_error s1 b)
        c).error_count = (OrderManager.track_error s1 b).error_count + 1 :=
      track_error_no_reset _ b c hl2 hcb
    rw [hsplit]
    unfold OrderManager.should_trigger_kill_switch
    rw [decide_eq_true_eq]
    rw [h3, h2]
    simp only [config.KILL_SWITCH_ERROR_COUNT]
    omega
  refine ⟨fun h => hpos h.1 h.2, fun h => hpos (by linarith) (by linarith), ?_⟩
  intro hgap
  have e1 : OrderManager.track_error OrderManager.fresh a =
      { error_count := 1, last_error_time := some a } := rfl
  have hlist : OrderManager.track_errors [a, b, c] =
      OrderManager.track_error (OrderManager.track_error
        (OrderManager.track_error OrderManager.fresh a) b) c := by
    simp [OrderManager.track_errors]
  rcases hgap with hba | hcb
  · have e2 : (OrderManager.track_error (OrderManager.track_error
        OrderManager.fresh a) b).error_count = 1 := by
      rw [e1]
      exact track_error_reset _ a b rfl hba
    have hl2 : (OrderManager.track_error (OrderManager.track_error
        OrderManager.fresh a) b).last_error_time = some b :=
      track_error_last _ b
    rw [hlist]
    unfold OrderManager.should_trigger_kill_switch
    rw [decide_eq_false_iff_not]
    intro hc
    rcases le_or_lt (c - b) (config.KILL_SWITCH_WINDOW_MINUTES * 60) with h | h
    · have := track_error_no_reset _ b c hl2 h
      rw [this, e2] at hc
      simp [config.KILL_SWITCH_ERROR_COUNT] at hc
    · have := track_error_reset _ b c hl2 h
      rw [this] at hc
      simp [config.KILL_SWITCH_ERROR_COUNT] at hc
  · have hl2 : (OrderManager.track_error (OrderManager.track_error
        OrderManager.fresh a) b).last_error_time = some b :=
      track_error_last _ b
    rw [hlist]
    unfold OrderManager.should_trigger_kill_switch
    rw [decide_eq_false_iff_not]
    intro hc
    have := track_error_reset _ b c hl2 hcb
    rw [this] at hc
    simp [config.KILL_SWITCH_ERROR_COUNT] at hc

/-- C3 witness: errors at 0 s, 300 s and 600 s — all inside one 10-minute
window — trip the kill-switch. -/
theorem kill_switch_window_spec_witness :
    OrderManager.should_trigger_kill_switch
        (OrderManager.track_errors ([] ++ [0, 300, 600])) = true :=
  (kill_switch_window_spec [] 0 300 600 (by norm_num) (by norm_num)).1
    (by norm_num [config.KILL_SWITCH_WINDOW_MINUTES])
